import Mathlib

/-!
Verification of `src/music/SystemHeaders.h`, a header-aggregation unit.

The source file is twelve lines of C preprocessor text:

  #ifndef SystemHeaders_h
  #define SystemHeaders_h

  // 导入系统套接字API
  #include <sys/socket.h>
  #include <netinet/in.h>
  #include <arpa/inet.h>
  #include <unistd.h>
  #include <netdb.h>
  #include <ifaddrs.h>

  #endif /* SystemHeaders_h */

We embed the file as a list of lines and give the fragment of the C
preprocessor it exercises (object-like defines with no parameters,
`#ifndef`/`#endif` conditionals, `#include`, `#undef`) as a state
machine folded over the lines.  The state holds the set of defined
names, the stack of open conditionals, and the emitted output.
A second processor threads an availability oracle for system headers
and aborts with the name of the first unavailable header, modelling
the compile-time missing-header failure.
-/

/-- One physical line of a preprocessed header file.  The constructors
cover every kind of line the source file contains, plus `undefD` (so
that "the guard is never undefined" is a real statement about the file)
and `codeD` (an ordinary C text line carrying declarations or
definitions, so that "the file is only directives" is a real statement
about the file). -/
inductive Line where
  | ifndefD (name : String)
  | defineD (name : String) (body : String)
  | undefD (name : String)
  | includeD (header : String)
  | endifD (trailing : String)
  | blankD
  | commentD (text : String)
  | codeD (text : String)
deriving DecidableEq

/-- A piece of preprocessor output: either the inclusion of a system
header made visible to the translation unit, or ordinary program text. -/
inductive Emitted where
  | includeHdr (header : String)
  | text (s : String)
deriving DecidableEq

/-- Preprocessor state: the names currently defined, the stack of open
conditionals (each entry records whether its branch is being taken),
and the output emitted so far. -/
structure PState where
  defined : List String
  condStack : List Bool
  output : List Emitted
deriving DecidableEq

/-- A state is active when every open conditional took its branch. -/
def PState.active (s : PState) : Bool := s.condStack.all (fun b => b)

/-- Effect of one line on the preprocessor state. -/
def stepLine (s : PState) : Line → PState
  | Line.ifndefD n =>
      { s with condStack := (s.active && !(s.defined.contains n)) :: s.condStack }
  | Line.defineD n _ =>
      if s.active then { s with defined := s.defined ++ [n] } else s
  | Line.undefD n =>
      if s.active then { s with defined := s.defined.filter (fun m => m != n) } else s
  | Line.includeD h =>
      if s.active then { s with output := s.output ++ [Emitted.includeHdr h] } else s
  | Line.endifD _ =>
      { s with condStack := s.condStack.tail }
  | Line.blankD => s
  | Line.commentD _ => s
  | Line.codeD t =>
      if s.active then { s with output := s.output ++ [Emitted.text t] } else s

/-- Run the preprocessor over a list of lines. -/
def processLines (s : PState) (ls : List Line) : PState := ls.foldl stepLine s

/-- The state at the start of a translation unit. -/
def initState : PState := ⟨[], [], []⟩

/-- `src/music/SystemHeaders.h`, line by line. -/
def systemHeadersFile : List Line := [
  Line.ifndefD "SystemHeaders_h",
  Line.defineD "SystemHeaders_h" "",
  Line.blankD,
  Line.commentD "导入系统套接字API",
  Line.includeD "sys/socket.h",
  Line.includeD "netinet/in.h",
  Line.includeD "arpa/inet.h",
  Line.includeD "unistd.h",
  Line.includeD "netdb.h",
  Line.includeD "ifaddrs.h",
  Line.blankD,
  Line.endifD "/* SystemHeaders_h */"
]

/-- The six system headers named by the file, in textual order. -/
def sixHeaders : List String :=
  ["sys/socket.h", "netinet/in.h", "arpa/inet.h", "unistd.h", "netdb.h", "ifaddrs.h"]

/-- The headers named by the include directives of a file, in order. -/
def includesOf (ls : List Line) : List String :=
  ls.filterMap (fun l => match l with | Line.includeD h => some h | _ => none)

/-- The (name, body) pairs of the define directives of a file, in order. -/
def definesOf (ls : List Line) : List (String × String) :=
  ls.filterMap (fun l => match l with | Line.defineD n b => some (n, b) | _ => none)

/-- The names of the undef directives of a file, in order. -/
def undefsOf (ls : List Line) : List String :=
  ls.filterMap (fun l => match l with | Line.undefD n => some n | _ => none)

/-- Whether a line is a preprocessor directive. -/
def isDirective : Line → Bool
  | Line.ifndefD _ => true
  | Line.defineD _ _ => true
  | Line.undefD _ => true
  | Line.includeD _ => true
  | Line.endifD _ => true
  | _ => false

/-- Whether a line is blank. -/
def isBlank : Line → Bool
  | Line.blankD => true
  | _ => false

/-- Whether a line is a comment. -/
def isComment : Line → Bool
  | Line.commentD _ => true
  | _ => false

/-- Whether a line is ordinary C program text (a declaration, a
definition, or any other non-directive code). -/
def isCode : Line → Bool
  | Line.codeD _ => true
  | _ => false

/-- Whether an emitted token is a header inclusion. -/
def Emitted.isInclude : Emitted → Bool
  | Emitted.includeHdr _ => true
  | Emitted.text _ => false

/-- Conditional nesting check: starting from `d` open conditionals,
every `#endif` matches an open `#ifndef` and the file ends with `d`
conditionals closed back down to zero. -/
def balancedFrom : Nat → List Line → Bool
  | 0, [] => true
  | _ + 1, [] => false
  | d, l :: ls =>
      match l with
      | Line.ifndefD _ => balancedFrom (d + 1) ls
      | Line.endifD _ =>
          match d with
          | 0 => false
          | e + 1 => balancedFrom e ls
      | _ => balancedFrom d ls

/-- A file is balanced when every conditional it opens is closed inside
the file and no `#endif` is unmatched. -/
def balanced (ls : List Line) : Bool := balancedFrom 0 ls

/-- Preprocessing with an availability oracle for system headers: an
include directive whose header the target platform lacks aborts
processing at that directive with the header's name; everything else
behaves as `processLines`. -/
def processLinesE (avail : String → Bool) : PState → List Line → Except String PState
  | s, [] => Except.ok s
  | s, l :: ls =>
      match l with
      | Line.includeD h =>
          if s.active && !(avail h) then Except.error h
          else processLinesE avail (stepLine s l) ls
      | _ => processLinesE avail (stepLine s l) ls

/-- The state produced by one inclusion of the file at the start of a
translation unit: the guard defined, no open conditional, and the six
headers emitted in order. -/
def afterOnce : PState :=
  ⟨["SystemHeaders_h"], [], sixHeaders.map Emitted.includeHdr⟩

-- Helper lemmas on the processor, shared by the claims below.

/-- Once the guard is defined, reprocessing the file is the identity:
the conditional pushed by line 1 does not take its branch, every line
inside is skipped, and the matching `#endif` restores the stack. -/
theorem processLines_guarded (s : PState)
    (hd : s.defined.contains "SystemHeaders_h" = true) :
    processLines s systemHeadersFile = s := by
  obtain ⟨d, c, o⟩ := s
  have hm : "SystemHeaders_h" ∈ d := by simpa using hd
  simp [processLines, systemHeadersFile, stepLine, PState.active, hm]

/-- In a skipped region, processing the file is also the identity. -/
theorem processLines_inactive (s : PState) (ha : s.active = false) :
    processLines s systemHeadersFile = s := by
  obtain ⟨d, c, o⟩ := s
  have ha' : c.all (fun b => b) = false := ha
  simp [processLines, systemHeadersFile, stepLine, PState.active, ha']

/-- First active inclusion: the guard gets defined and the six headers
are emitted in textual order; the conditional stack is restored. -/
theorem processLines_fresh (s : PState)
    (hd : s.defined.contains "SystemHeaders_h" = false)
    (ha : s.active = true) :
    processLines s systemHeadersFile =
      ⟨s.defined ++ ["SystemHeaders_h"], s.condStack,
        s.output ++ sixHeaders.map Emitted.includeHdr⟩ := by
  obtain ⟨d, c, o⟩ := s
  have hm : "SystemHeaders_h" ∉ d := by simpa using hd
  have ha' : c.all (fun b => b) = true := ha
  simp [processLines, systemHeadersFile, stepLine, PState.active, hm, ha', sixHeaders]

/-- Reprocessing after any one processing of the file changes nothing. -/
theorem processLines_twice (s : PState) :
    processLines (processLines s systemHeadersFile) systemHeadersFile =
      processLines s systemHeadersFile := by
  by_cases ha : s.active = true
  · by_cases hd : s.defined.contains "SystemHeaders_h" = true
    · rw [processLines_guarded s hd, processLines_guarded s hd]
    · rw [processLines_fresh s (by simpa using hd) ha]
      apply processLines_guarded
      simp
  · rw [processLines_inactive s (by simpa using ha)]
    rw [processLines_inactive s (by simpa using ha)]

/-- Processing `k` further copies of the file once the guard is defined
changes nothing, for every `k`. -/
theorem processLines_guarded_join (s : PState)
    (hd : s.defined.contains "SystemHeaders_h" = true) (k : Nat) :
    processLines s (List.flatten (List.replicate k systemHeadersFile)) = s := by
  induction k with
  | zero => rfl
  | succ m ih =>
      rw [List.replicate_succ, List.flatten_cons]
      show List.foldl stepLine s (systemHeadersFile ++ _) = s
      rw [List.foldl_append]
      show processLines (processLines s systemHeadersFile) _ = s
      rw [processLines_guarded s hd]
      exact ih

-- Claims.

/-- C1: the file's include directives name exactly the six platform
headers the spec enumerates — sys/socket.h, netinet/in.h, arpa/inet.h,
unistd.h, netdb.h, ifaddrs.h — and no other header. -/
theorem c1_exactly_six_headers :
    includesOf systemHeadersFile = sixHeaders := by decide

/-- C2 counterexample: the file does not perform nine include
directives; it contains six. -/
theorem c2_not_nine_includes :
    (includesOf systemHeadersFile).length ≠ 9 := by decide

/-- C2 (amended): processing the file performs exactly six include
directives — six textually present, and six emitted on a first
inclusion — no more and no fewer. -/
theorem c2_exactly_six_includes :
    (includesOf systemHeadersFile).length = 6 ∧
      (processLines initState systemHeadersFile).output.length = 6 := by decide

/-- C3: including the aggregator twice in a translation unit equals
including it once, from any preprocessor state; and in particular the
guard is defined exactly once, so the declared symbols are available
without redefinition. -/
theorem c3_double_inclusion_idempotent :
    (∀ s : PState,
        processLines (processLines s systemHeadersFile) systemHeadersFile =
          processLines s systemHeadersFile) ∧
      (processLines initState systemHeadersFile).defined = ["SystemHeaders_h"] ∧
      (processLines initState systemHeadersFile).output =
        sixHeaders.map Emitted.includeHdr :=
  ⟨processLines_twice, by decide, by decide⟩

/-- C4: the only possible failure is compile-time: processing with an
availability oracle fails exactly when some referenced header is
unavailable, and it fails fast at the first missing include directive,
reporting that header; moreover the file contains no program text at
all, so no runtime behavior exists in it. -/
theorem c4_fail_fast_missing_header (avail : String → Bool) :
    (processLinesE avail initState systemHeadersFile =
        match (includesOf systemHeadersFile).find? (fun h => !(avail h)) with
        | some h => Except.error h
        | none => Except.ok afterOnce) ∧
      systemHeadersFile.all (fun l => !(isCode l)) = true := by
  constructor
  · cases h1 : avail "sys/socket.h" <;> cases h2 : avail "netinet/in.h" <;>
      cases h3 : avail "arpa/inet.h" <;> cases h4 : avail "unistd.h" <;>
      cases h5 : avail "netdb.h" <;> cases h6 : avail "ifaddrs.h" <;>
      simp [processLinesE, systemHeadersFile, stepLine, PState.active, initState,
        includesOf, afterOnce, sixHeaders, h1, h2, h3, h4, h5, h6]
  · decide

/-- C5: every line of the file is a directive, a blank line, or a
comment; no line is program text, so the file declares no function,
type, or variable of its own. -/
theorem c5_only_directives :
    systemHeadersFile.all
        (fun l => isDirective l || isBlank l || isComment l) = true ∧
      systemHeadersFile.all (fun l => !(isCode l)) = true := by decide

/-- C6: processing the file from the start of a translation unit
changes the state only by defining the guard and emitting the six
header inclusions; every emitted token is a header inclusion, not
program text, so no data is created, mutated, or destroyed. -/
theorem c6_no_side_effects :
    processLines initState systemHeadersFile = afterOnce ∧
      (processLines initState systemHeadersFile).output.all
        Emitted.isInclude = true := by decide

/-- C7: on every platform whose header set contains the six referenced
headers, processing the translation unit succeeds and makes the six
networking headers visible in order. -/
theorem c7_posix_platforms_succeed (avail : String → Bool)
    (hall : ∀ h ∈ includesOf systemHeadersFile, avail h = true) :
    processLinesE avail initState systemHeadersFile = Except.ok afterOnce := by
  have h1 := hall "sys/socket.h" (by decide)
  have h2 := hall "netinet/in.h" (by decide)
  have h3 := hall "arpa/inet.h" (by decide)
  have h4 := hall "unistd.h" (by decide)
  have h5 := hall "netdb.h" (by decide)
  have h6 := hall "ifaddrs.h" (by decide)
  simp [processLinesE, systemHeadersFile, stepLine, PState.active, initState,
    afterOnce, sixHeaders, h1, h2, h3, h4, h5, h6]

/-- C7 witness: a platform with every header available processes the
file successfully. -/
theorem c7_posix_platforms_succeed_witness :
    processLinesE (fun _ => true) initState systemHeadersFile =
      Except.ok afterOnce :=
  c7_posix_platforms_succeed (fun _ => true) (fun _ _ => rfl)

/-- C8: the only directive defining a name in the file is the guard
`SystemHeaders_h`, defined with an empty body; the file never undefines
anything; and after processing, the guard is the only name the file
itself has defined. -/
theorem c8_only_guard_defined :
    definesOf systemHeadersFile = [("SystemHeaders_h", "")] ∧
      undefsOf systemHeadersFile = [] ∧
      (processLines initState systemHeadersFile).defined =
        ["SystemHeaders_h"] := by decide

/-- C9: the six headers appear in the fixed textual order sys/socket.h,
netinet/in.h, arpa/inet.h, unistd.h, netdb.h, ifaddrs.h, both in the
file and in the emitted output, so the socket API header is processed
before the internet address header. -/
theorem c9_fixed_include_order :
    includesOf systemHeadersFile = sixHeaders ∧
      (processLines initState systemHeadersFile).output =
        sixHeaders.map Emitted.includeHdr ∧
      (includesOf systemHeadersFile).indexOf "sys/socket.h" <
        (includesOf systemHeadersFile).indexOf "netinet/in.h" := by decide

/-- C10: the file is balanced — every `#ifndef` it opens is closed by a
matching `#endif` inside the file — it never undefines the guard, and
including it any number `n ≥ 1` of times in a translation unit yields
the same preprocessing result as including it once. -/
theorem c10_idempotent_any_multiplicity :
    balanced systemHeadersFile = true ∧
      undefsOf systemHeadersFile = [] ∧
      ∀ n : Nat, 1 ≤ n →
        processLines initState (List.flatten (List.replicate n systemHeadersFile)) =
          processLines initState systemHeadersFile := by
  refine ⟨by decide, by decide, ?_⟩
  intro n hn
  obtain ⟨m, rfl⟩ : ∃ m, n = m + 1 := ⟨n - 1, by omega⟩
  rw [List.replicate_succ, List.flatten_cons]
  show List.foldl stepLine initState (systemHeadersFile ++ _) = _
  rw [List.foldl_append]
  show processLines (processLines initState systemHeadersFile) _ = _
  exact processLines_guarded_join _ (by decide) m

/-- C10 witness: three inclusions equal one inclusion. -/
theorem c10_idempotent_any_multiplicity_witness :
    balanced systemHeadersFile = true ∧
      undefsOf systemHeadersFile = [] ∧
      processLines initState
          (List.flatten (List.replicate 3 systemHeadersFile)) =
        processLines initState systemHeadersFile :=
  ⟨c10_idempotent_any_multiplicity.1, c10_idempotent_any_multiplicity.2.1,
    c10_idempotent_any_multiplicity.2.2 3 (by decide)⟩
